import Mathlib

/-!
# Verification of the sparrow webhook fan-out service

A shallow embedding of the core of the `sarathsp06/sparrow` repository:
the store repository (`internal/webhooks/repository.go`), the
event-processing worker (`internal/workers/event_processing.go`), the
delivery worker (`internal/workers/webhook.go`) and the Connect front
door (`internal/connect/webhook_server.go`).

Modelling conventions:
* Instants of time are integers (seconds); `time.Now()` becomes an
  explicit `now : Int` argument.  `time.Now().After(t)` is `now > t`.
* `uuid.New().String()` becomes an explicit fresh-id argument; freshness
  (the id differs from anything already present) is a hypothesis where a
  theorem needs it.
* The Postgres store becomes a `Store` of three lists of rows; an
  `INSERT` is an append, an `UPDATE ... WHERE id = $1` maps over the
  rows with a matching id.  Primary-key and foreign-key behaviour
  follows the schema of `migrations/001_multiple_events_support.sql`
  (`webhook_deliveries.webhook_id REFERENCES webhook_registrations(id)`,
  `webhook_deliveries.event_id REFERENCES event_records(id)`): an insert
  that violates a constraint returns an error, exactly as `pgx.Exec`
  surfaces it to the Go caller.
* Go byte strings are modelled as Lean `String`s; the byte-level
  truncation `io.LimitReader(body, 1000)` becomes `String.take 1000`.
* River queue semantics (per the riverqueue/river API used by the
  workers): a worker returning `nil` completes the job; returning a
  plain non-nil `error` marks the attempt failed and the job is
  re-queued (retried with backoff) until the queue's own attempt cap;
  only a `river.JobCancel` error cancels the job without re-queueing.
  The workers in this repository never construct `river.JobCancel`, so
  every non-nil return is a retryable failure.
-/

namespace Sparrow

/-- Delivery status enumeration, `internal/webhooks/models.go`. -/
inductive WebhookDeliveryStatus where
  | pending
  | sending
  | success
  | failed
  | retrying
  | expired
deriving DecidableEq, Repr

/-- `webhooks.WebhookRegistration`, `internal/webhooks/models.go`.
Headers and metadata maps are modelled as association lists. -/
structure WebhookRegistration where
  id : String
  nspace : String
  events : List String
  url : String
  headers : List (String × String)
  timeout : Int
  active : Bool
  description : String
  createdAt : Int
  updatedAt : Int
deriving DecidableEq, Repr

/-- `webhooks.EventRecord`, `internal/webhooks/models.go`. -/
structure EventRecord where
  id : String
  nspace : String
  event : String
  payload : String
  ttl : Int
  metadata : List (String × String)
  createdAt : Int
  expiresAt : Int
deriving DecidableEq, Repr

/-- `webhooks.WebhookDelivery`, `internal/webhooks/models.go`. -/
structure WebhookDelivery where
  id : String
  webhookId : String
  eventId : String
  status : WebhookDeliveryStatus
  attemptCount : Int
  maxAttempts : Int
  createdAt : Int
  lastAttemptedAt : Option Int
  nextRetryAt : Option Int
  expiresAt : Int
  responseCode : Int
  responseBody : String
  errorMessage : String
deriving DecidableEq, Repr

/-- The persistent store: the three tables of
`migrations/001_multiple_events_support.sql`. -/
structure Store where
  registrations : List WebhookRegistration
  events : List EventRecord
  deliveries : List WebhookDelivery
deriving DecidableEq, Repr

/-- The delivery row a later `UPDATE ... WHERE id = $1` would address. -/
def Store.findDelivery (st : Store) (id : String) : Option WebhookDelivery :=
  st.deliveries.find? (fun d => d.id == id)

namespace Repository

/-- `Repository.RegisterWebhook`, `internal/webhooks/repository.go:25`.
The Go function overwrites `registration.ID` with a fresh uuid and
stamps `created_at`/`updated_at`, then inserts the row (events and
headers marshalled verbatim as JSON).  A duplicate primary key makes
the insert fail. -/
def registerWebhook (st : Store) (r : WebhookRegistration) (freshId : String)
    (now : Int) : Except String (Store × WebhookRegistration) :=
  let r := { r with id := freshId, createdAt := now, updatedAt := now }
  if st.registrations.any (fun w => w.id == freshId) then
    .error "duplicate key value violates unique constraint"
  else
    .ok ({ st with registrations := st.registrations ++ [r] }, r)

/-- `Repository.GetWebhooksByEvent`, `internal/webhooks/repository.go:69`:
`WHERE namespace = $1 AND active = true AND events::jsonb ? $2`.
The jsonb `?` operator on an array of strings tests exact string
membership among the top-level elements. -/
def getWebhooksByEvent (st : Store) (ns ev : String) : List WebhookRegistration :=
  st.registrations.filter (fun w => w.nspace == ns && w.active && w.events.contains ev)

/-- `Repository.StoreEvent`, `internal/webhooks/repository.go:176`.
The Go function unconditionally overwrites `event.ID` with a fresh
uuid (it never checks for a pre-assigned id), stamps `created_at :=
now` and `expires_at := now + ttl` seconds, then inserts. -/
def storeEvent (st : Store) (e : EventRecord) (freshId : String) (now : Int) :
    Except String (Store × EventRecord) :=
  let e := { e with id := freshId, createdAt := now, expiresAt := now + e.ttl }
  if st.events.any (fun x => x.id == freshId) then
    .error "duplicate key value violates unique constraint"
  else
    .ok ({ st with events := st.events ++ [e] }, e)

/-- `Repository.CreateDelivery`, `internal/webhooks/repository.go:206`.
The Go function unconditionally overwrites `delivery.ID` with a fresh
uuid, stamps `created_at` and forces `status := pending`, then inserts.
The insert is subject to the schema's foreign keys on `webhook_id` and
`event_id` (migrations/001), surfacing as an error. -/
def createDelivery (st : Store) (d : WebhookDelivery) (freshId : String) (now : Int) :
    Except String (Store × WebhookDelivery) :=
  let d := { d with id := freshId, createdAt := now, status := .pending }
  if st.deliveries.any (fun x => x.id == freshId) then
    .error "duplicate key value violates unique constraint"
  else if !(st.registrations.any (fun w => w.id == d.webhookId)) then
    .error "insert violates foreign key constraint webhook_deliveries_webhook_id_fkey"
  else if !(st.events.any (fun e => e.id == d.eventId)) then
    .error "insert violates foreign key constraint webhook_deliveries_event_id_fkey"
  else
    .ok ({ st with deliveries := st.deliveries ++ [d] }, d)

/-- The row-level effect of `Repository.UpdateDeliveryStatus`,
`internal/webhooks/repository.go:235`: sets the status, stamps
`last_attempted_at = now()`, writes the response fields and
unconditionally runs `attempt_count = attempt_count + 1`. -/
def updateDeliveryRow (d : WebhookDelivery) (status : WebhookDeliveryStatus)
    (now : Int) (responseCode : Int) (responseBody errorMessage : String) :
    WebhookDelivery :=
  { d with
      status := status
      lastAttemptedAt := some now
      responseCode := responseCode
      responseBody := responseBody
      errorMessage := errorMessage
      attemptCount := d.attemptCount + 1 }

/-- `Repository.UpdateDeliveryStatus`, `internal/webhooks/repository.go:235`:
`UPDATE webhook_deliveries SET ... WHERE id = $1`.  Every row whose id
matches is rewritten; a non-matching id updates nothing (and the Go
call still returns nil). -/
def updateDeliveryStatus (st : Store) (id : String) (status : WebhookDeliveryStatus)
    (responseCode : Int) (responseBody errorMessage : String) (now : Int) : Store :=
  { st with
      deliveries := st.deliveries.map (fun d =>
        if d.id == id then updateDeliveryRow d status now responseCode responseBody errorMessage
        else d) }

end Repository

/-- What a River worker's return value means to the queue.  `ok` is a
`nil` return: the job is completed and never re-run.  `retryableErr`
is a plain non-nil Go `error`: River records a failed attempt and
re-queues the job with backoff until its own attempt cap.  `cancel` is
a `river.JobCancel(err)` return: the job terminates immediately and is
not re-queued.  No worker in this repository ever builds
`river.JobCancel`. -/
inductive Outcome where
  | ok
  | retryableErr (msg : String)
  | cancel (msg : String)
deriving DecidableEq, Repr

/-- Whether the queue schedules the job again after this return. -/
def Outcome.isRetryable : Outcome → Bool
  | .retryableErr _ => true
  | _ => false

/-- The result of the HTTP phase of one delivery pass
(`internal/workers/webhook.go:100-150`), supplied as an oracle:
either `http.NewRequestWithContext` fails, or `client.Do` fails with a
transport error (no HTTP response), or a response arrives carrying a
status code, the reason phrase of its status line, and a body. -/
inductive HttpResult where
  | reqError (msg : String)
  | transportError (msg : String)
  | response (code : Int) (reason : String) (body : String)
deriving DecidableEq, Repr

/-- Go's `http.Response.Status` is the full status line as received,
i.e. the code followed by the reason phrase — `"404 Not Found"` — not
the reason phrase alone. -/
def statusLine (code : Int) (reason : String) : String :=
  toString code ++ " " ++ reason

/-- `jobs.WebhookArgs`, `internal/jobs/webhook.go`: the payload of a
`webhook_delivery` job. -/
structure WebhookArgs where
  deliveryID : String
  webhookID : String
  eventID : String
  url : String
  headers : List (String × String)
  payload : String
  timeout : Int
  expiresAt : Int
  nspace : String
  event : String
deriving DecidableEq, Repr

/-- The bytes admitted by Go's `textproto` header-key canonicaliser:
alphanumerics and the token punctuation of RFC 7230. -/
def isTokenChar (c : Char) : Bool :=
  c.isAlphanum ||
    [33, 35, 36, 37, 38, 39, 42, 43, 45, 46, 94, 95, 96, 124, 126].contains c.toNat

/-- `textproto.CanonicalMIMEHeaderKey`, applied by `http.Header.Set`:
if every byte is a valid token byte, upper-case the first letter and
each letter following a hyphen and lower-case the rest; otherwise
return the key unchanged. -/
def canonicalHeaderKey (s : String) : String :=
  if s.toList.all isTokenChar then
    String.mk ((s.toList.foldl
      (fun (acc : List Char × Bool) c =>
        ((if acc.2 then c.toUpper else c.toLower) :: acc.1, c == '-'))
      ([], true)).1.reverse)
  else s

/-- `http.Header.Set k v`: store `v` under the canonical form of `k`,
replacing any previous value for that canonical key. -/
def headerSet (h : List (String × String)) (k v : String) : List (String × String) :=
  let ck := canonicalHeaderKey k
  if h.any (fun p => p.1 == ck) then
    h.map (fun p => if p.1 == ck then (ck, v) else p)
  else
    h ++ [(ck, v)]

/-- `http.Header.Get k`: the value stored under the canonical form of
`k`, if any. -/
def headerGet (h : List (String × String)) (k : String) : Option String :=
  (h.find? (fun p => p.1 == canonicalHeaderKey k)).map (fun p => p.2)

/-- The header block of the delivered request,
`internal/workers/webhook.go:115-121`: a fresh request has no headers;
the worker first runs `req.Header.Set("Content-Type",
"application/json")` and then `req.Header.Set(key, value)` for each
user-supplied header.  (Go iterates the user map in unspecified order;
the association list fixes one order, which matters only when two
distinct user keys share a canonical form.) -/
def buildRequestHeaders (userHeaders : List (String × String)) : List (String × String) :=
  userHeaders.foldl (fun h p => headerSet h p.1 p.2)
    (headerSet [] "Content-Type" "application/json")

/-- The delivered HTTP request, `internal/workers/webhook.go:99-121`:
always `POST`, body is the raw job payload, headers as above. -/
structure HttpRequest where
  method : String
  url : String
  body : String
  headers : List (String × String)
deriving DecidableEq, Repr

/-- `internal/workers/webhook.go:99-121` as a request value. -/
def buildRequest (args : WebhookArgs) : HttpRequest :=
  { method := "POST"
    url := args.url
    body := args.payload
    headers := buildRequestHeaders args.headers }

/-- One `UpdateDeliveryStatus` call made by the delivery worker.
`updOk k` tells whether the `k`-th call of the pass reaches the
database; when it fails the store is untouched and the Go code only
logs the error and carries on. -/
def guardedUpdate (updOk : Nat → Bool) (k : Nat) (st : Store) (deliveryID : String)
    (status : WebhookDeliveryStatus) (code : Int) (body msg : String) (now : Int) : Store :=
  if updOk k then Repository.updateDeliveryStatus st deliveryID status code body msg now
  else st

/-- `WebhookWorker.Work`, `internal/workers/webhook.go:47-228`, as a
function of the store, the job payload, the worker's clock reading,
the HTTP oracle and the update-write oracle.  Paths:

1. expiry guard `time.Now().After(args.ExpiresAt)`: write `expired`
   with code 0, empty body, message `"Delivery expired"`, and return
   the plain error `"webhook delivery expired"`;
2. write `sending` (code 0, empty body and message);
3. request-creation failure: write `failed` with the wrapped message
   and return a plain error;
4. transport failure: write `failed` with the wrapped message and
   return a plain error;
5. response with 2xx code: write `success` with the code, the body
   truncated to its first 1000 bytes and empty message, return nil;
6. response with non-2xx code: write `failed` with the code, the
   truncated body and message `"HTTP <code>: <status-line>"`, return a
   plain error. -/
def webhookWork (st : Store) (args : WebhookArgs) (now : Int) (http : HttpResult)
    (updOk : Nat → Bool) : Store × Outcome :=
  if now > args.expiresAt then
    (guardedUpdate updOk 0 st args.deliveryID .expired 0 "" "Delivery expired" now,
     .retryableErr "webhook delivery expired")
  else
    let st1 := guardedUpdate updOk 0 st args.deliveryID .sending 0 "" "" now
    match http with
    | .reqError msg =>
        (guardedUpdate updOk 1 st1 args.deliveryID .failed 0 ""
           ("Failed to create request: " ++ msg) now,
         .retryableErr ("failed to create request: " ++ msg))
    | .transportError msg =>
        (guardedUpdate updOk 1 st1 args.deliveryID .failed 0 ""
           ("Request failed: " ++ msg) now,
         .retryableErr ("failed to send webhook: " ++ msg))
    | .response code reason body =>
        if 200 ≤ code ∧ code < 300 then
          (guardedUpdate updOk 1 st1 args.deliveryID .success code (body.take 1000) "" now,
           .ok)
        else
          (guardedUpdate updOk 1 st1 args.deliveryID .failed code (body.take 1000)
             ("HTTP " ++ toString code ++ ": " ++ statusLine code reason) now,
           .retryableErr ("webhook delivery failed: " ++
             ("HTTP " ++ toString code ++ ": " ++ statusLine code reason)))

/-- The outcome classification of one delivery pass, read off the
return statements of `WebhookWorker.Work`: it depends only on the
expiry guard and the HTTP result. -/
def classifyOutcome (expiresAt now : Int) (http : HttpResult) : Outcome :=
  if now > expiresAt then .retryableErr "webhook delivery expired"
  else
    match http with
    | .reqError msg => .retryableErr ("failed to create request: " ++ msg)
    | .transportError msg => .retryableErr ("failed to send webhook: " ++ msg)
    | .response code reason _ =>
        if 200 ≤ code ∧ code < 300 then .ok
        else .retryableErr ("webhook delivery failed: " ++
               ("HTTP " ++ toString code ++ ": " ++ statusLine code reason))

/-- `jobs.EventArgs`, `internal/jobs/webhook.go`: the payload of an
`event_processing` job. -/
structure EventArgs where
  eventID : String
  nspace : String
  event : String
  payload : String
  ttlSeconds : Int
  metadata : List (String × String)
  createdAt : Int
deriving DecidableEq, Repr

/-- Effects of one run of the event-processing worker: the store after
the run, the `webhook_delivery` jobs inserted on the `webhooks` queue,
and the value returned to the queue. -/
structure FanoutResult where
  store : Store
  enqueued : List WebhookArgs
  outcome : Outcome
deriving Repr

/-- `EventProcessingWorker.Work`, `internal/workers/event_processing.go:31-138`:

1. build an `EventRecord` with `ID := args.EventID` and hand it to
   `StoreEvent` (which overwrites the id with `freshEventId`); a store
   error is returned to the queue (plain error, hence retryable);
2. fetch the active registrations matching `(namespace, event)`; if
   none, return nil;
3. for the `k`-th match: draw `deliveryID := freshDeliveryId k`, build
   a delivery row with that id, `event_id := args.EventID`,
   `max_attempts := 3` and `expires_at := now + ttl`, and hand it to
   `CreateDelivery` (which overwrites the row id with `freshRowId k`);
   on error, log and continue; otherwise insert a `webhook_delivery`
   job whose `delivery_id` is the worker-drawn `deliveryID` (queue
   insertion itself is modelled as succeeding);
4. return nil. -/
def eventWork (st : Store) (args : EventArgs) (freshEventId : String)
    (freshDeliveryId freshRowId : Nat → String) (now : Int) : FanoutResult :=
  let rec0 : EventRecord :=
    { id := args.eventID, nspace := args.nspace, event := args.event,
      payload := args.payload, ttl := args.ttlSeconds, metadata := args.metadata,
      createdAt := args.createdAt, expiresAt := 0 }
  match Repository.storeEvent st rec0 freshEventId now with
  | .error e => { store := st, enqueued := [], outcome := .retryableErr e }
  | .ok (st1, _) =>
    let ws := Repository.getWebhooksByEvent st1 args.nspace args.event
    if ws.isEmpty then { store := st1, enqueued := [], outcome := .ok }
    else
      let expiresAt := now + args.ttlSeconds
      let final := ws.enum.foldl
        (fun (acc : Store × List WebhookArgs) kw =>
          let k := kw.1
          let w := kw.2
          let deliveryID := freshDeliveryId k
          let d0 : WebhookDelivery :=
            { id := deliveryID, webhookId := w.id, eventId := args.eventID,
              status := .pending, attemptCount := 0, maxAttempts := 3,
              createdAt := 0, lastAttemptedAt := none, nextRetryAt := none,
              expiresAt := expiresAt, responseCode := 0, responseBody := "",
              errorMessage := "" }
          match Repository.createDelivery acc.1 d0 (freshRowId k) now with
          | .error _ => acc
          | .ok (st', _) =>
            let wargs : WebhookArgs :=
              { deliveryID := deliveryID, webhookID := w.id, eventID := args.eventID,
                url := w.url, headers := w.headers, payload := args.payload,
                timeout := w.timeout, expiresAt := expiresAt,
                nspace := args.nspace, event := args.event }
            (st', acc.2 ++ [wargs]))
        (st1, [])
      { store := final.1, enqueued := final.2, outcome := .ok }

/-- Connect error codes used by `internal/connect/webhook_server.go`. -/
inductive ConnectCode where
  | invalidArgument
  | internal
deriving DecidableEq, Repr

/-- `pb.PushEventRequest` as consumed by the Connect server. -/
structure PushEventRequest where
  nspace : String
  event : String
  payload : String
  ttlSeconds : Int
  metadata : List (String × String)
deriving DecidableEq, Repr

/-- The fields of `pb.PushEventResponse` the spec talks about. -/
structure PushEventResponse where
  eventId : String
  webhooksTriggered : Nat
  webhookIds : List String
deriving DecidableEq, Repr

/-- `WebhookConnectServer.PushEvent`, `internal/connect/webhook_server.go:198-319`.
`isValidJSON` stands for `encoding/json.Unmarshal` succeeding on the
payload (the server only checks syntactic validity).  The function
returns the synchronous result together with the list of
`event_processing` jobs inserted on the `events` queue; a validation
error returns before anything is enqueued, and the server itself never
writes to the store (the event row is written only by the
event-processing worker when it runs an enqueued job). -/
def pushEvent (isValidJSON : String → Bool) (st : Store) (req : PushEventRequest)
    (freshEventId : String) (now : Int) :
    Except (ConnectCode × String) PushEventResponse × List EventArgs :=
  if req.nspace == "" then
    (.error (.invalidArgument, "namespace is required"), [])
  else if req.event == "" then
    (.error (.invalidArgument, "event is required"), [])
  else if req.payload != "" && !(isValidJSON req.payload) then
    (.error (.invalidArgument, "invalid JSON payload"), [])
  else
    let ttl := if req.ttlSeconds ≤ 0 then 3600 else req.ttlSeconds
    let eventArgs : EventArgs :=
      { eventID := freshEventId, nspace := req.nspace, event := req.event,
        payload := req.payload, ttlSeconds := ttl, metadata := req.metadata,
        createdAt := now }
    let ws := Repository.getWebhooksByEvent st req.nspace req.event
    (.ok { eventId := freshEventId, webhooksTriggered := ws.length,
           webhookIds := ws.map (fun w => w.id) },
     [eventArgs])

/-- `pb.RegisterWebhookRequest` as consumed by the Connect server. -/
structure RegisterWebhookRequest where
  nspace : String
  events : List String
  url : String
  headers : List (String × String)
  timeout : Int
  active : Bool
  description : String
deriving DecidableEq, Repr

/-- `WebhookConnectServer.RegisterWebhook`,
`internal/connect/webhook_server.go:57-158`: validates (non-empty
namespace, at least one event, non-empty URL, no empty event name),
defaults the timeout to 30 when it is not positive, builds a
registration carrying `req.Events` verbatim and stores it through
`Repository.RegisterWebhook`. -/
def connectRegisterWebhook (st : Store) (req : RegisterWebhookRequest)
    (freshId : String) (now : Int) :
    Except (ConnectCode × String) (Store × WebhookRegistration) :=
  if req.nspace == "" then
    .error (.invalidArgument, "namespace is required")
  else if req.events.isEmpty then
    .error (.invalidArgument, "at least one event is required")
  else if req.url == "" then
    .error (.invalidArgument, "URL is required")
  else if req.events.any (fun e => e == "") then
    .error (.invalidArgument, "event names cannot be empty")
  else
    match Repository.registerWebhook st
        { id := "", nspace := req.nspace, events := req.events, url := req.url,
          headers := req.headers,
          timeout := if req.timeout ≤ 0 then 30 else req.timeout,
          active := req.active, description := req.description,
          createdAt := 0, updatedAt := 0 } freshId now with
    | .error e => .error (.internal, "failed to register webhook: " ++ e)
    | .ok (st', r') => .ok (st', r')

/-- One scheduled execution of a `webhook_delivery` job: the worker's
clock reading, the HTTP oracle for this pass and the update-write
oracle for this pass. -/
structure Pass where
  now : Int
  http : HttpResult
  updOk : Nat → Bool

/-- River's driving of one `webhook_delivery` job over a sequence of
scheduled executions: each pass runs `WebhookWorker.Work`; a pass that
returns nil (or a cancel) completes the job, so no later pass runs; a
pass that returns a plain error leads the queue to run the next pass.
The boolean tracks whether the job has completed. -/
def runPasses (st : Store) (done : Bool) (args : WebhookArgs) :
    List Pass → Store × Bool
  | [] => (st, done)
  | p :: rest =>
    if done then (st, done)
    else
      let r := webhookWork st args p.now p.http p.updOk
      runPasses r.1 (!r.2.isRetryable) args rest

/-- Retry times the queue hands a job are nondecreasing: River never
schedules a retry earlier than the attempt that failed. -/
def PassTimesMono (ps : List Pass) : Prop :=
  ps.Pairwise (fun p q => p.now ≤ q.now)

/-- The status of the delivery row a given id addresses. -/
def Store.deliveryStatus (st : Store) (id : String) : Option WebhookDeliveryStatus :=
  (st.findDelivery id).map (fun d => d.status)

/-! ## Concrete fixtures used by counterexamples and witnesses -/

/-- An active registration of `("user", "signup")`, as scenario S1 of
the spec sets one up. -/
def sampleRegistration : WebhookRegistration :=
  { id := "W1", nspace := "user", events := ["signup"], url := "http://receiver/ok",
    headers := [], timeout := 30, active := true, description := "",
    createdAt := 0, updatedAt := 0 }

/-- A store holding only `sampleRegistration`. -/
def sampleStore : Store :=
  { registrations := [sampleRegistration], events := [], deliveries := [] }

/-- An `event_processing` job payload for event id `E1`. -/
def sampleEventArgs : EventArgs :=
  { eventID := "E1", nspace := "user", event := "signup", payload := "p",
    ttlSeconds := 3600, metadata := [], createdAt := 5 }

/-- `sampleStore` with an event row whose id is the job's `E1`
pre-seeded, so that the delivery foreign key is satisfiable. -/
def seededStore : Store :=
  { registrations := [sampleRegistration],
    events := [{ id := "E1", nspace := "user", event := "signup", payload := "p",
                 ttl := 3600, metadata := [], createdAt := 5, expiresAt := 3605 }],
    deliveries := [] }

/-- A pending delivery row as `CreateDelivery` writes it. -/
def sampleDelivery : WebhookDelivery :=
  { id := "D1", webhookId := "W1", eventId := "E1", status := .pending,
    attemptCount := 0, maxAttempts := 3, createdAt := 0, lastAttemptedAt := none,
    nextRetryAt := none, expiresAt := 100, responseCode := 0, responseBody := "",
    errorMessage := "" }

/-- A store holding `sampleRegistration` and the pending `sampleDelivery`. -/
def sampleDeliveryStore : Store :=
  { registrations := [sampleRegistration], events := [], deliveries := [sampleDelivery] }

/-- The `webhook_delivery` job payload addressing `sampleDelivery`. -/
def sampleWebhookArgs : WebhookArgs :=
  { deliveryID := "D1", webhookID := "W1", eventID := "E1", url := "http://receiver/ok",
    headers := [], payload := "p", timeout := 30, expiresAt := 100,
    nspace := "user", event := "signup" }

/-! ## Helper lemmas -/

/-- Auxiliary: an `UPDATE ... WHERE id = $1` rewrites exactly the row
`find?` locates under that id. -/
theorem find?_update_list (l : List WebhookDelivery) (id : String)
    (s : WebhookDeliveryStatus) (c : Int) (b m : String) (t : Int) :
    (l.map (fun d => if d.id == id then Repository.updateDeliveryRow d s t c b m else d)).find?
        (fun d => d.id == id)
      = (l.find? (fun d => d.id == id)).map
          (fun d => Repository.updateDeliveryRow d s t c b m) := by
  induction l with
  | nil => rfl
  | cons hd tl ih =>
    simp only [List.map_cons]
    by_cases h : (hd.id == id) = true
    · rw [if_pos h,
          List.find?_cons_of_pos
            (tl.map (fun d => if d.id == id then Repository.updateDeliveryRow d s t c b m else d))
            (by simpa [Repository.updateDeliveryRow] using h),
          List.find?_cons_of_pos tl h]
      simp
    · rw [if_neg h,
          List.find?_cons_of_neg
            (tl.map (fun d => if d.id == id then Repository.updateDeliveryRow d s t c b m else d))
            h,
          List.find?_cons_of_neg tl h]
      exact ih

/-- `UpdateDeliveryStatus` transforms the row addressed by `id`
through `updateDeliveryRow` and touches nothing else under that id. -/
theorem findDelivery_updateDeliveryStatus (st : Store) (id : String)
    (s : WebhookDeliveryStatus) (c : Int) (b m : String) (t : Int) :
    (Repository.updateDeliveryStatus st id s c b m t).findDelivery id
      = (st.findDelivery id).map (fun d => Repository.updateDeliveryRow d s t c b m) := by
  simpa [Repository.updateDeliveryStatus, Store.findDelivery] using
    find?_update_list st.deliveries id s c b m t

/-! ## Claim theorems -/

/-- C1.  `StoreEvent` does not keep a pre-assigned id: the worker hands
it an `EventRecord` with `ID = args.EventID = "E1"`, yet the stored
event row carries the fresh uuid instead, so the delivery rows the
worker then tries to create with `event_id = "E1"` reference no event
record — under the schema's foreign key every such insert fails and the
run ends with no delivery row and no enqueued job at all. -/
theorem storeEvent_discards_preassigned_event_id :
    sampleEventArgs.eventID = "E1" ∧
    ("uuid-evt" : String) ≠ "E1" ∧
    (eventWork sampleStore sampleEventArgs "uuid-evt" (fun _ => "uuid-d")
        (fun _ => "uuid-row") 10).store.events.map (fun e => e.id) = ["uuid-evt"] ∧
    (eventWork sampleStore sampleEventArgs "uuid-evt" (fun _ => "uuid-d")
        (fun _ => "uuid-row") 10).store.deliveries = [] ∧
    (eventWork sampleStore sampleEventArgs "uuid-evt" (fun _ => "uuid-d")
        (fun _ => "uuid-row") 10).enqueued = [] := by
  decide

/-- C2.  Even when the delivery insert can succeed (event row for `E1`
pre-seeded), the row `CreateDelivery` stores carries the repository's
fresh uuid `"uuid-row"` while the enqueued `webhook_delivery` payload
carries the worker-drawn `"uuid-d"`: the two never agree, so the
delivery worker's `UpdateDeliveryStatus` calls address no existing
row. -/
theorem fanout_payload_delivery_id_mismatch :
    (eventWork seededStore sampleEventArgs "uuid-evt" (fun _ => "uuid-d")
        (fun _ => "uuid-row") 10).enqueued.map (fun a => a.deliveryID) = ["uuid-d"] ∧
    (eventWork seededStore sampleEventArgs "uuid-evt" (fun _ => "uuid-d")
        (fun _ => "uuid-row") 10).store.deliveries.map (fun d => d.id) = ["uuid-row"] ∧
    ("uuid-d" : String) ≠ "uuid-row" := by
  decide

/-- C3, counterexample.  The initial `sending` transition does
increment `attempt_count` (from 0 to 1 on a fresh row), and a single
concluded 2xx attempt leaves `attempt_count = 2`, not 1. -/
theorem sending_write_increments_attempt_count :
    ((Repository.updateDeliveryStatus sampleDeliveryStore "D1" .sending 0 "" "" 50).findDelivery
        "D1").map (fun d => d.attemptCount) = some 1 ∧
    (sampleDeliveryStore.findDelivery "D1").map (fun d => d.attemptCount) = some 0 ∧
    ((webhookWork sampleDeliveryStore sampleWebhookArgs 50 (.response 200 "OK" "thanks")
        (fun _ => true)).1.findDelivery "D1").map (fun d => d.attemptCount) = some 2 := by
  decide

/-- C3, amended.  Every `UpdateDeliveryStatus` write — the `sending`
mark included — increments `attempt_count` by exactly one, so a
delivery pass that concluded an attempt (a `sending` write followed by
a terminal write) increments it by two. -/
theorem every_status_write_increments_attempt_count :
    (∀ (d : WebhookDelivery) (status : WebhookDeliveryStatus) (now code : Int)
        (body msg : String),
        (Repository.updateDeliveryRow d status now code body msg).attemptCount
          = d.attemptCount + 1) ∧
    ((webhookWork sampleDeliveryStore sampleWebhookArgs 50 (.response 200 "OK" "thanks")
        (fun _ => true)).1.findDelivery "D1").map (fun d => d.attemptCount) = some 2 := by
  exact ⟨fun d status now code body msg => rfl, by decide⟩

/-- C4, counterexample.  On an expired job the worker does write
`expired` with code 0, empty body and message `"Delivery expired"`,
but it returns a plain error — a retryable failure to the queue — so
the job is re-queued rather than terminated. -/
theorem expired_return_is_retryable :
    (webhookWork sampleDeliveryStore sampleWebhookArgs 200 (.response 200 "OK" "x")
        (fun _ => true)).2 = .retryableErr "webhook delivery expired" ∧
    ((webhookWork sampleDeliveryStore sampleWebhookArgs 200 (.response 200 "OK" "x")
        (fun _ => true)).2).isRetryable = true ∧
    ((webhookWork sampleDeliveryStore sampleWebhookArgs 200 (.response 200 "OK" "x")
        (fun _ => true)).1.findDelivery "D1").map
        (fun d => (d.status, d.responseCode, d.responseBody, d.errorMessage))
      = some (.expired, 0, "", "Delivery expired") := by
  decide

/-- C4, amended.  When the job's `expires_at` is in the past the
worker sets the delivery to `expired` with response code 0, empty body
and error message `"Delivery expired"`, and returns an error that the
queue treats as an ordinary retryable failure, so the job is re-queued
(each re-run hitting the expiry guard again) until the queue's own
attempt cap. -/
theorem expiry_guard_marks_expired_and_returns_retryable
    (st : Store) (args : WebhookArgs) (now : Int) (http : HttpResult)
    (updOk : Nat → Bool) (d : WebhookDelivery)
    (hnow : now > args.expiresAt)
    (hd : st.findDelivery args.deliveryID = some d)
    (hupd : updOk 0 = true) :
    (webhookWork st args now http updOk).2 = .retryableErr "webhook delivery expired" ∧
    ((webhookWork st args now http updOk).2).isRetryable = true ∧
    (webhookWork st args now http updOk).1.findDelivery args.deliveryID
      = some (Repository.updateDeliveryRow d .expired now 0 "" "Delivery expired") := by
  unfold webhookWork
  rw [if_pos hnow]
  refine ⟨rfl, rfl, ?_⟩
  simp [guardedUpdate, hupd, findDelivery_updateDeliveryStatus, hd]

/-- C4 witness: the amended statement applied to the fixture delivery
at clock reading 200 (past `expires_at = 100`). -/
theorem expiry_guard_marks_expired_and_returns_retryable_witness :
    (webhookWork sampleDeliveryStore sampleWebhookArgs 200 (.transportError "x")
        (fun _ => true)).2 = .retryableErr "webhook delivery expired" :=
  (expiry_guard_marks_expired_and_returns_retryable sampleDeliveryStore sampleWebhookArgs
    200 (.transportError "x") (fun _ => true) sampleDelivery (by decide) (by decide) rfl).1

/-- C7.  A `PushEvent` with well-formed namespace and event but a
non-empty payload that is not syntactically valid JSON returns the
`InvalidArgument` error synchronously and enqueues nothing — and since
the Connect server never writes the store and the event row is written
only by the event-processing worker from an enqueued job, no event row
is ever written for it. -/
theorem invalid_json_push_event_rejected
    (isValidJSON : String → Bool) (st : Store) (req : PushEventRequest)
    (freshEventId : String) (now : Int)
    (hns : req.nspace ≠ "") (hev : req.event ≠ "")
    (hp : req.payload ≠ "") (hjson : isValidJSON req.payload = false) :
    pushEvent isValidJSON st req freshEventId now
      = (.error (.invalidArgument, "invalid JSON payload"), []) := by
  unfold pushEvent
  rw [if_neg (by simp [hns]), if_neg (by simp [hev]), if_pos (by simp [hp, hjson])]

/-- C7 witness: the rejection applied to the literal scenario-S6 style
call (payload not valid JSON, oracle returns false). -/
theorem invalid_json_push_event_rejected_witness :
    pushEvent (fun _ => false) sampleStore
      { nspace := "user", event := "signup", payload := "not json",
        ttlSeconds := 3600, metadata := [] } "E9" 3
      = (.error (.invalidArgument, "invalid JSON payload"), []) :=
  invalid_json_push_event_rejected (fun _ => false) sampleStore
    { nspace := "user", event := "signup", payload := "not json",
      ttlSeconds := 3600, metadata := [] } "E9" 3
    (by decide) (by decide) (by decide) rfl

/-- C10.  The value a delivery pass returns to the queue is the pure
classification of the expiry guard and the HTTP result — independent
of the store and of whether any `UpdateDeliveryStatus` write reaches
the database; in particular, when the terminal `success` write fails
(oracle true only for call 0) the pass still returns nil while the row
is left in `sending`, never recording the success. -/
theorem outcome_independent_of_status_writes :
    (∀ (st : Store) (args : WebhookArgs) (now : Int) (http : HttpResult)
        (updOk : Nat → Bool),
        (webhookWork st args now http updOk).2 = classifyOutcome args.expiresAt now http) ∧
    (webhookWork sampleDeliveryStore sampleWebhookArgs 50 (.response 200 "OK" "thanks")
        (fun k => k == 0)).2 = .ok ∧
    ((webhookWork sampleDeliveryStore sampleWebhookArgs 50 (.response 200 "OK" "thanks")
        (fun k => k == 0)).1.findDelivery "D1").map (fun d => d.status)
      = some .sending := by
  refine ⟨?_, by decide, by decide⟩
  intro st args now http updOk
  unfold webhookWork classifyOutcome
  by_cases h : now > args.expiresAt
  · rw [if_pos h, if_pos h]
  · rw [if_neg h, if_neg h]
    cases http with
    | reqError msg => rfl
    | transportError msg => rfl
    | response code reason body =>
      dsimp only
      by_cases h2 : 200 ≤ code ∧ code < 300
      · rw [if_pos h2, if_pos h2]
      · rw [if_neg h2, if_neg h2]

/-- C6, counterexample.  For a 500 response whose reason phrase is
`"Internal Server Error"`, Go's `resp.Status` is the full status line
`"500 Internal Server Error"`, so the recorded error message is
`"HTTP 500: 500 Internal Server Error"` — not
`"HTTP 500: Internal Server Error"` as the claim's
`"HTTP <code>: <reason-phrase>"` shape requires. -/
theorem non2xx_error_message_keeps_status_line :
    ((webhookWork sampleDeliveryStore sampleWebhookArgs 50
        (.response 500 "Internal Server Error" "oops") (fun _ => true)).1.findDelivery
        "D1").map (fun d => d.errorMessage)
      = some "HTTP 500: 500 Internal Server Error" ∧
    ("HTTP 500: 500 Internal Server Error" : String) ≠ "HTTP 500: Internal Server Error" := by
  decide

/-- C6, amended.  For every HTTP response received: a 2xx code sets the
row to `success` with the code, the body truncated to its first 1000
bytes and an empty error message, and the worker returns nil; a
non-2xx code sets the row to `failed` with the code and truncated body
and `error_message = "HTTP <code>: <status>"` where `<status>` is the
full status line `"<code> <reason-phrase>"`, and the worker returns a
retryable failure. -/
theorem http_response_classification
    (st : Store) (args : WebhookArgs) (now code : Int) (reason body : String)
    (d : WebhookDelivery)
    (hnow : ¬ now > args.expiresAt)
    (hd : st.findDelivery args.deliveryID = some d) :
    (200 ≤ code ∧ code < 300 →
      (webhookWork st args now (.response code reason body) (fun _ => true)).2 = .ok ∧
      ((webhookWork st args now (.response code reason body) (fun _ => true)).1.findDelivery
          args.deliveryID).map
          (fun x => (x.status, x.responseCode, x.responseBody, x.errorMessage))
        = some (.success, code, body.take 1000, "")) ∧
    (¬ (200 ≤ code ∧ code < 300) →
      (webhookWork st args now (.response code reason body) (fun _ => true)).2
        = .retryableErr ("webhook delivery failed: " ++
            ("HTTP " ++ toString code ++ ": " ++ statusLine code reason)) ∧
      ((webhookWork st args now (.response code reason body) (fun _ => true)).1.findDelivery
          args.deliveryID).map
          (fun x => (x.status, x.responseCode, x.responseBody, x.errorMessage))
        = some (.failed, code, body.take 1000,
            "HTTP " ++ toString code ++ ": " ++ statusLine code reason)) := by
  unfold webhookWork
  rw [if_neg hnow]
  dsimp only
  constructor
  · intro h2
    rw [if_pos h2]
    refine ⟨rfl, ?_⟩
    simp [guardedUpdate, findDelivery_updateDeliveryStatus, hd, Repository.updateDeliveryRow]
  · intro h2
    rw [if_neg h2]
    refine ⟨rfl, ?_⟩
    simp [guardedUpdate, findDelivery_updateDeliveryStatus, hd, Repository.updateDeliveryRow]

/-- C6 witness: the 2xx half applied to scenario S1's literal
response (`200 OK`, body `"thanks"`). -/
theorem http_response_classification_witness :
    (webhookWork sampleDeliveryStore sampleWebhookArgs 50 (.response 200 "OK" "thanks")
        (fun _ => true)).2 = .ok ∧
    ((webhookWork sampleDeliveryStore sampleWebhookArgs 50 (.response 200 "OK" "thanks")
        (fun _ => true)).1.findDelivery "D1").map
        (fun x => (x.status, x.responseCode, x.responseBody, x.errorMessage))
      = some (.success, 200, "thanks".take 1000, "") :=
  (http_response_classification sampleDeliveryStore sampleWebhookArgs 50 200 "OK" "thanks"
      sampleDelivery (by decide) (by decide)).1 (by decide)

/-- C9, counterexample.  Registering with the events list
`["signup", "signup"]` stores the list verbatim: the persisted value
holds `"signup"` twice, so duplicates do not collapse. -/
theorem register_preserves_duplicate_events :
    ((connectRegisterWebhook sampleStore
        { nspace := "user", events := ["signup", "signup"], url := "u", headers := [],
          timeout := 0, active := true, description := "" } "F1" 7).toOption.map
        (fun x => x.2.events)) = some ["signup", "signup"] ∧
    (["signup", "signup"] : List String).count "signup" = 2 := by
  decide

/-- A successful `Repository.RegisterWebhook` returns the input row
with the fresh id and timestamps stamped in, appended to the
registrations table. -/
theorem registerWebhook_eq_ok
    (st : Store) (r : WebhookRegistration) (freshId : String) (now : Int)
    (st' : Store) (r' : WebhookRegistration)
    (h : Repository.registerWebhook st r freshId now = .ok (st', r')) :
    r' = { r with id := freshId, createdAt := now, updatedAt := now } ∧
    st' = { st with registrations := st.registrations ++ [r'] } := by
  unfold Repository.registerWebhook at h
  split at h
  · simp at h
  · simp only [Except.ok.injEq, Prod.mk.injEq] at h
    obtain ⟨hst, hr⟩ := h
    subst hr
    exact ⟨rfl, hst.symm⟩

/-- What a successful `RegisterWebhook` stores: the request's fields
verbatim (events included), the fresh id, the defaulted timeout and
the timestamps, appended to the registrations table. -/
theorem connectRegisterWebhook_ok
    (st : Store) (req : RegisterWebhookRequest) (freshId : String) (now : Int)
    (st' : Store) (r' : WebhookRegistration)
    (hok : connectRegisterWebhook st req freshId now = .ok (st', r')) :
    r' = { id := freshId, nspace := req.nspace, events := req.events, url := req.url,
           headers := req.headers,
           timeout := if req.timeout ≤ 0 then 30 else req.timeout,
           active := req.active, description := req.description,
           createdAt := now, updatedAt := now } ∧
    st' = { st with registrations := st.registrations ++ [r'] } := by
  unfold connectRegisterWebhook at hok
  by_cases h1 : (req.nspace == "") = true
  · rw [if_pos h1] at hok; exact absurd hok (by simp)
  rw [if_neg h1] at hok
  by_cases h2 : req.events.isEmpty = true
  · rw [if_pos h2] at hok; exact absurd hok (by simp)
  rw [if_neg h2] at hok
  by_cases h3 : (req.url == "") = true
  · rw [if_pos h3] at hok; exact absurd hok (by simp)
  rw [if_neg h3] at hok
  by_cases h4 : req.events.any (fun e => e == "") = true
  · rw [if_pos h4] at hok; exact absurd hok (by simp)
  rw [if_neg h4] at hok
  rcases hreg : Repository.registerWebhook st
      { id := "", nspace := req.nspace, events := req.events, url := req.url,
        headers := req.headers,
        timeout := if req.timeout ≤ 0 then 30 else req.timeout,
        active := req.active, description := req.description,
        createdAt := 0, updatedAt := 0 } freshId now with e | p
  · rw [hreg] at hok; exact absurd hok (by simp)
  · obtain ⟨pst, pr⟩ := p
    rw [hreg] at hok
    simp only [Except.ok.injEq, Prod.mk.injEq] at hok
    obtain ⟨hst, hr⟩ := hok
    subst hst
    subst hr
    exact registerWebhook_eq_ok st _ freshId now pst pr hreg

/-- C9, amended.  The persisted `events` value is the caller's list
verbatim — duplicates are preserved, not collapsed — and matching a
registration against an event name (`GetActiveWebhooksByEvent`) tests
exact string membership of the name in that list, together with the
namespace and the active flag. -/
theorem events_stored_verbatim_exact_match
    (st : Store) (req : RegisterWebhookRequest) (freshId : String) (now : Int)
    (st' : Store) (r' : WebhookRegistration)
    (hok : connectRegisterWebhook st req freshId now = .ok (st', r')) :
    r'.events = req.events ∧
    ∀ (ns ev : String) (w : WebhookRegistration),
      w ∈ Repository.getWebhooksByEvent st' ns ev ↔
        (w ∈ st'.registrations ∧ w.nspace = ns ∧ w.active = true ∧ ev ∈ w.events) := by
  obtain ⟨hr, _⟩ := connectRegisterWebhook_ok st req freshId now st' r' hok
  constructor
  · rw [hr]
  · intro ns ev w
    simp [Repository.getWebhooksByEvent, List.mem_filter, and_assoc]

/-- Auxiliary: replacing every entry keyed `ck` by `(ck, v)` makes
`find?` under `ck` return `(ck, v)` whenever some entry is keyed `ck`. -/
theorem find?_replace_hit (l : List (String × String)) (ck v : String)
    (ha : l.any (fun p => p.1 == ck) = true) :
    (l.map (fun p => if p.1 == ck then (ck, v) else p)).find? (fun p => p.1 == ck)
      = some (ck, v) := by
  induction l with
  | nil => simp at ha
  | cons hd tl ih =>
    simp only [List.map_cons]
    by_cases hh : (hd.1 == ck) = true
    · rw [if_pos hh]
      refine List.find?_cons_of_pos
        (tl.map (fun p => if p.1 == ck then (ck, v) else p)) ?_
      exact beq_self_eq_true ck
    · rw [if_neg hh,
          List.find?_cons_of_neg (tl.map (fun p => if p.1 == ck then (ck, v) else p)) hh]
      refine ih ?_
      simpa [List.any_cons, hh] using ha

/-- Auxiliary: a hypothesis refuting `b = true` on a boolean is the
equation `b = false`. -/
theorem bool_eq_false {b : Bool} (h : ¬ b = true) : b = false := by
  cases b
  · rfl
  · exact absurd rfl h

/-- Auxiliary: appending a single entry behind a list with no match
for the predicate leaves `find?` to that entry. -/
theorem find?_append_single (l : List (String × String)) (x : String × String)
    (p : String × String → Bool) (ha : l.any p = false) :
    (l ++ [x]).find? p = [x].find? p := by
  induction l with
  | nil => rfl
  | cons hd tl ih =>
    simp only [List.any_cons, Bool.or_eq_false_iff] at ha
    rw [List.cons_append,
        List.find?_cons_of_neg (tl ++ [x]) (by intro hc; rw [ha.1] at hc; cases hc)]
    exact ih ha.2

/-- Auxiliary: appending a single entry that does not match the
predicate never changes `find?`. -/
theorem find?_append_no_tail (l : List (String × String)) (x : String × String)
    (p : String × String → Bool) (hx : p x = false) :
    (l ++ [x]).find? p = l.find? p := by
  induction l with
  | nil =>
    rw [List.nil_append, List.find?_cons_of_neg [] (by intro hc; rw [hx] at hc; cases hc)]
  | cons hd tl ih =>
    by_cases hh : p hd = true
    · rw [List.cons_append, List.find?_cons_of_pos (tl ++ [x]) hh,
          List.find?_cons_of_pos tl hh]
    · rw [List.cons_append, List.find?_cons_of_neg (tl ++ [x]) hh,
          List.find?_cons_of_neg tl hh]
      exact ih

/-- Auxiliary: replacing the entries keyed `ck` leaves `find?` under a
different key `ckp` untouched. -/
theorem find?_replace_other (l : List (String × String)) (ck ckp v : String)
    (hckb : (ck == ckp) = false) :
    (l.map (fun p => if p.1 == ck then (ck, v) else p)).find? (fun p => p.1 == ckp)
      = l.find? (fun p => p.1 == ckp) := by
  induction l with
  | nil => rfl
  | cons hd tl ih =>
    simp only [List.map_cons]
    by_cases hh : (hd.1 == ck) = true
    · have hd1 : hd.1 = ck := by simpa using hh
      rw [if_pos hh,
          List.find?_cons_of_neg (tl.map fun p => if p.1 == ck then (ck, v) else p)
            (by simp [hckb]),
          List.find?_cons_of_neg tl (by intro hc; rw [hd1, hckb] at hc; cases hc)]
      exact ih
    · rw [if_neg hh]
      by_cases hh2 : (hd.1 == ckp) = true
      · rw [List.find?_cons_of_pos (tl.map fun p => if p.1 == ck then (ck, v) else p) hh2,
            List.find?_cons_of_pos tl hh2]
      · rw [List.find?_cons_of_neg (tl.map fun p => if p.1 == ck then (ck, v) else p) hh2,
            List.find?_cons_of_neg tl hh2]
        exact ih

/-- Setting a header whose canonical key coincides with the canonical
key of the looked-up name makes the lookup return the new value. -/
theorem headerGet_headerSet_hit (h : List (String × String)) (k v kq : String)
    (hck : canonicalHeaderKey k = canonicalHeaderKey kq) :
    headerGet (headerSet h k v) kq = some v := by
  unfold headerGet headerSet
  rw [← hck]
  by_cases ha : h.any (fun p => p.1 == canonicalHeaderKey k) = true
  · rw [if_pos ha, find?_replace_hit h (canonicalHeaderKey k) v ha]
    rfl
  · rw [if_neg ha,
        find?_append_single h (canonicalHeaderKey k, v) _ (bool_eq_false ha),
        List.find?_cons_of_pos [] (by simp)]
    rfl

/-- Setting a header whose canonical key differs from the canonical
key of the looked-up name does not change the lookup. -/
theorem headerGet_headerSet_miss (h : List (String × String)) (k v kq : String)
    (hck : canonicalHeaderKey k ≠ canonicalHeaderKey kq) :
    headerGet (headerSet h k v) kq = headerGet h kq := by
  have hckb : (canonicalHeaderKey k == canonicalHeaderKey kq) = false := by
    simpa using hck
  unfold headerGet headerSet
  by_cases ha : h.any (fun p => p.1 == canonicalHeaderKey k) = true
  · rw [if_pos ha,
        find?_replace_other h (canonicalHeaderKey k) (canonicalHeaderKey kq) v hckb]
  · rw [if_neg ha,
        find?_append_no_tail h (canonicalHeaderKey k, v) _ (by simpa using hckb)]

/-- One worker-issued update rewrites the addressed row through
`updateDeliveryRow` when the write reaches the database and leaves the
store untouched otherwise. -/
theorem findDelivery_guardedUpdate (updOk : Nat → Bool) (k : Nat) (st : Store)
    (id : String) (s : WebhookDeliveryStatus) (c : Int) (b m : String) (now : Int) :
    (guardedUpdate updOk k st id s c b m now).findDelivery id
      = if updOk k then
          (st.findDelivery id).map (fun d => Repository.updateDeliveryRow d s now c b m)
        else st.findDelivery id := by
  unfold guardedUpdate
  by_cases h : updOk k = true
  · rw [if_pos h, if_pos h, findDelivery_updateDeliveryStatus]
  · rw [if_neg h, if_neg h]

/-- After the two update calls of a non-expired delivery pass the
addressed row's status is the terminal status of the pass, the
`sending` mark, or its previous status (depending on which writes
reached the database). -/
theorem status_after_two_updates (updOk : Nat → Bool) (st : Store) (id : String)
    (s1 s2 : WebhookDeliveryStatus) (c1 c2 : Int) (b1 m1 b2 m2 : String) (now : Int)
    (d : WebhookDelivery) (hd : st.findDelivery id = some d) :
    ∃ d', (guardedUpdate updOk 1 (guardedUpdate updOk 0 st id s1 c1 b1 m1 now)
            id s2 c2 b2 m2 now).findDelivery id = some d' ∧
      (d'.status = s2 ∨ d'.status = s1 ∨ d'.status = d.status) := by
  rw [findDelivery_guardedUpdate, findDelivery_guardedUpdate, hd]
  by_cases h1 : updOk 1 = true <;> by_cases h0 : updOk 0 = true
  · rw [if_pos h1, if_pos h0]
    exact ⟨_, rfl, Or.inl rfl⟩
  · rw [if_pos h1, if_neg h0]
    exact ⟨_, rfl, Or.inl rfl⟩
  · rw [if_neg h1, if_pos h0]
    exact ⟨_, rfl, Or.inr (Or.inl rfl)⟩
  · rw [if_neg h1, if_neg h0]
    exact ⟨_, rfl, Or.inr (Or.inr rfl)⟩

/-- A delivery pass never conjures up a row: an id with no row before
the pass has no row after it. -/
theorem webhookWork_findDelivery_none (st : Store) (args : WebhookArgs) (now : Int)
    (http : HttpResult) (updOk : Nat → Bool)
    (h : st.findDelivery args.deliveryID = none) :
    (webhookWork st args now http updOk).1.findDelivery args.deliveryID = none := by
  unfold webhookWork
  repeat' split
  all_goals simp [findDelivery_guardedUpdate, h]

/-- Case analysis of one delivery pass on the addressed row: the row
survives, a `success` status can only emerge from the pass that
returned nil (or have been there before), an `expired` status can only
emerge from the expiry guard (or have been there before), and a row
already `expired` stays `expired` whenever the pass runs past its
`expires_at`. -/
theorem webhookWork_status_cases (st : Store) (args : WebhookArgs) (now : Int)
    (http : HttpResult) (updOk : Nat → Bool) (d : WebhookDelivery)
    (hd : st.findDelivery args.deliveryID = some d) :
    ∃ d', (webhookWork st args now http updOk).1.findDelivery args.deliveryID = some d' ∧
      (d'.status = .success →
        (webhookWork st args now http updOk).2 = .ok ∨ d.status = .success) ∧
      (d'.status = .expired → args.expiresAt < now ∨ d.status = .expired) ∧
      (d.status = .expired → args.expiresAt < now → d'.status = .expired) := by
  unfold webhookWork
  by_cases hnow : now > args.expiresAt
  · rw [if_pos hnow]
    rw [show (guardedUpdate updOk 0 st args.deliveryID .expired 0 "" "Delivery expired" now,
          Outcome.retryableErr "webhook delivery expired").1
        = guardedUpdate updOk 0 st args.deliveryID .expired 0 "" "Delivery expired" now
      from rfl]
    by_cases h0 : updOk 0 = true
    · refine ⟨Repository.updateDeliveryRow d .expired now 0 "" "Delivery expired", ?_, ?_, ?_, ?_⟩
      · rw [findDelivery_guardedUpdate, if_pos h0, hd]
        rfl
      · intro hs
        simp [Repository.updateDeliveryRow] at hs
      · intro _
        exact Or.inl hnow
      · intro _ _
        rfl
    · refine ⟨d, ?_, ?_, ?_, ?_⟩
      · rw [findDelivery_guardedUpdate, if_neg h0, hd]
      · intro hs
        exact Or.inr hs
      · intro he
        exact Or.inr he
      · intro hde _
        exact hde
  · rw [if_neg hnow]
    cases http with
    | reqError msg =>
      dsimp only
      obtain ⟨d', hfind, hst⟩ := status_after_two_updates updOk st args.deliveryID
        .sending .failed 0 0 "" "" "" ("Failed to create request: " ++ msg) now d hd
      refine ⟨d', hfind, ?_, ?_, ?_⟩
      · intro hs
        rcases hst with h | h | h
        · rw [h] at hs; cases hs
        · rw [h] at hs; cases hs
        · exact Or.inr (h.symm.trans hs)
      · intro he
        rcases hst with h | h | h
        · rw [h] at he; cases he
        · rw [h] at he; cases he
        · exact Or.inr (h.symm.trans he)
      · intro _ hlt
        exact absurd hlt hnow
    | transportError msg =>
      dsimp only
      obtain ⟨d', hfind, hst⟩ := status_after_two_updates updOk st args.deliveryID
        .sending .failed 0 0 "" "" "" ("Request failed: " ++ msg) now d hd
      refine ⟨d', hfind, ?_, ?_, ?_⟩
      · intro hs
        rcases hst with h | h | h
        · rw [h] at hs; cases hs
        · rw [h] at hs; cases hs
        · exact Or.inr (h.symm.trans hs)
      · intro he
        rcases hst with h | h | h
        · rw [h] at he; cases he
        · rw [h] at he; cases he
        · exact Or.inr (h.symm.trans he)
      · intro _ hlt
        exact absurd hlt hnow
    | response code reason body =>
      dsimp only
      by_cases h2 : 200 ≤ code ∧ code < 300
      · rw [if_pos h2]
        obtain ⟨d', hfind, hst⟩ := status_after_two_updates updOk st args.deliveryID
          .sending .success 0 code "" "" (body.take 1000) "" now d hd
        refine ⟨d', hfind, ?_, ?_, ?_⟩
        · intro _
          exact Or.inl rfl
        · intro he
          rcases hst with h | h | h
          · rw [h] at he; cases he
          · rw [h] at he; cases he
          · exact Or.inr (h.symm.trans he)
        · intro _ hlt
          exact absurd hlt hnow
      · rw [if_neg h2]
        obtain ⟨d', hfind, hst⟩ := status_after_two_updates updOk st args.deliveryID
          .sending .failed 0 code "" "" (body.take 1000)
          ("HTTP " ++ toString code ++ ": " ++ statusLine code reason) now d hd
        refine ⟨d', hfind, ?_, ?_, ?_⟩
        · intro hs
          rcases hst with h | h | h
          · rw [h] at hs; cases hs
          · rw [h] at hs; cases hs
          · exact Or.inr (h.symm.trans hs)
        · intro he
          rcases hst with h | h | h
          · rw [h] at he; cases he
          · rw [h] at he; cases he
          · exact Or.inr (h.symm.trans he)
        · intro _ hlt
          exact absurd hlt hnow

/-- Folding user headers none of which canonicalise to `Content-Type`
leaves the `Content-Type` lookup unchanged. -/
theorem foldl_headerSet_preserves (l : List (String × String))
    (h : List (String × String))
    (hn : ∀ p ∈ l, canonicalHeaderKey p.1 ≠ "Content-Type") :
    headerGet (l.foldl (fun acc p => headerSet acc p.1 p.2) h) "Content-Type"
      = headerGet h "Content-Type" := by
  induction l generalizing h with
  | nil => rfl
  | cons hd tl ih =>
    rw [List.foldl_cons, ih _ (fun p hp => hn p (List.mem_cons_of_mem hd hp)),
        headerGet_headerSet_miss]
    rw [show canonicalHeaderKey "Content-Type" = "Content-Type" from by decide]
    exact hn hd (List.mem_cons_self hd tl)

/-- C8.  The worker sets `Content-Type: application/json` first and
then overlays every user header with `Header.Set` (which canonicalises
key case): if the registration's headers carry an entry whose
canonical key is `Content-Type` (and no later entry canonicalises to
it), that user value is the delivered `Content-Type`; if no entry
canonicalises to `Content-Type`, the delivered value is
`application/json`. -/
theorem content_type_header_precedence (hs : List (String × String)) :
    (∀ (l1 : List (String × String)) (k v : String) (l2 : List (String × String)),
        hs = l1 ++ (k, v) :: l2 →
        canonicalHeaderKey k = "Content-Type" →
        (∀ p ∈ l2, canonicalHeaderKey p.1 ≠ "Content-Type") →
        headerGet (buildRequestHeaders hs) "Content-Type" = some v) ∧
    ((∀ p ∈ hs, canonicalHeaderKey p.1 ≠ "Content-Type") →
        headerGet (buildRequestHeaders hs) "Content-Type" = some "application/json") := by
  constructor
  · intro l1 k v l2 hsplit hk hl2
    subst hsplit
    unfold buildRequestHeaders
    rw [List.foldl_append, List.foldl_cons,
        foldl_headerSet_preserves l2 _ hl2,
        headerGet_headerSet_hit]
    rw [hk]
    decide
  · intro hn
    unfold buildRequestHeaders
    rw [foldl_headerSet_preserves hs _ hn]
    decide

/-- C8 witness: a lower-case user `content-type` overrides the
default, and with no user content-type the default is delivered. -/
theorem content_type_header_precedence_witness :
    headerGet (buildRequestHeaders [("content-type", "text/plain")]) "Content-Type"
      = some "text/plain" ∧
    headerGet (buildRequestHeaders [("X-Api-Key", "s3cr3t")]) "Content-Type"
      = some "application/json" :=
  ⟨(content_type_header_precedence [("content-type", "text/plain")]).1
      [] "content-type" "text/plain" [] rfl (by decide) (by simp),
   (content_type_header_precedence [("X-Api-Key", "s3cr3t")]).2 (by decide)⟩


/-- Emptied pass list: the job state is returned as is. -/
theorem runPasses_nil (st : Store) (done : Bool) (args : WebhookArgs) :
    runPasses st done args [] = (st, done) := rfl

/-- A completed job is never run again, whatever passes remain. -/
theorem runPasses_done (st : Store) (args : WebhookArgs) (ps : List Pass) :
    runPasses st true args ps = (st, true) := by
  cases ps with
  | nil => rfl
  | cons p rest => rfl

/-- Unfolding one scheduled execution of a live job. -/
theorem runPasses_cons (st : Store) (args : WebhookArgs) (p : Pass) (rest : List Pass) :
    runPasses st false args (p :: rest)
      = runPasses (webhookWork st args p.now p.http p.updOk).1
          (!((webhookWork st args p.now p.http p.updOk).2).isRetryable) args rest := rfl

/-- Runs compose over concatenation of pass lists. -/
theorem runPasses_append (ps1 ps2 : List Pass) (st : Store) (done : Bool)
    (args : WebhookArgs) :
    runPasses st done args (ps1 ++ ps2)
      = runPasses (runPasses st done args ps1).1 (runPasses st done args ps1).2 args ps2 := by
  induction ps1 generalizing st done with
  | nil => rfl
  | cons p tl ih =>
    cases done with
    | false => rw [List.cons_append, runPasses_cons, runPasses_cons, ih]
    | true => rw [List.cons_append, runPasses_done, runPasses_done, runPasses_done]

/-- The run invariant of one `webhook_delivery` job driven from a
`pending` row: whenever the addressed row shows `success` the job has
completed (so no pass will run again), and whenever it shows `expired`
either the job has completed or every remaining pass runs past the
job's `expires_at` (so the expiry guard re-fires). -/
theorem runPasses_invariant (args : WebhookArgs) (ps1 : List Pass) :
    ∀ (ps2 : List Pass) (st : Store) (done : Bool),
      PassTimesMono (ps1 ++ ps2) →
      (st.deliveryStatus args.deliveryID = some .success → done = true) →
      (st.deliveryStatus args.deliveryID = some .expired →
        done = true ∨ ∀ p ∈ ps1 ++ ps2, args.expiresAt < p.now) →
      ((runPasses st done args ps1).1.deliveryStatus args.deliveryID = some .success →
        (runPasses st done args ps1).2 = true) ∧
      ((runPasses st done args ps1).1.deliveryStatus args.deliveryID = some .expired →
        (runPasses st done args ps1).2 = true ∨ ∀ p ∈ ps2, args.expiresAt < p.now) := by
  induction ps1 with
  | nil =>
    intro ps2 st done hmono hs he
    refine ⟨hs, fun hexp => ?_⟩
    rcases he hexp with h | hall
    · exact Or.inl h
    · exact Or.inr (fun q hq => hall q hq)
  | cons p tl ih =>
    intro ps2 st done hmono hs he
    cases done with
    | true =>
      rw [runPasses_done]
      exact ⟨fun _ => rfl, fun _ => Or.inl rfl⟩
    | false =>
      rw [runPasses_cons]
      have hmono' : PassTimesMono (tl ++ ps2) := (List.pairwise_cons.mp hmono).2
      have hrel : ∀ q ∈ tl ++ ps2, p.now ≤ q.now := (List.pairwise_cons.mp hmono).1
      rcases hfd : st.findDelivery args.deliveryID with _ | d
      · -- no row: it stays absent, both implications below are vacuous
        have hnone : (webhookWork st args p.now p.http p.updOk).1.findDelivery
            args.deliveryID = none :=
          webhookWork_findDelivery_none st args p.now p.http p.updOk hfd
        refine ih ps2 _ _ hmono' ?_ ?_
        · intro hsucc
          rw [Store.deliveryStatus, hnone] at hsucc
          cases hsucc
        · intro hexp
          rw [Store.deliveryStatus, hnone] at hexp
          cases hexp
      · obtain ⟨d', hfind, hsucc, hexp, hkeep⟩ :=
          webhookWork_status_cases st args p.now p.http p.updOk d hfd
        refine ih ps2 _ _ hmono' ?_ ?_
        · intro hsucc'
          rw [Store.deliveryStatus, hfind] at hsucc'
          have hds' : d'.status = .success := by
            simpa using hsucc'
          rcases hsucc hds' with hok | hold
          · rw [hok]
            rfl
          · have : st.deliveryStatus args.deliveryID = some .success := by
              simp [Store.deliveryStatus, hfd, hold]
            exact absurd (hs this) (by simp)
        · intro hexp'
          rw [Store.deliveryStatus, hfind] at hexp'
          have hde' : d'.status = .expired := by
            simpa using hexp'
          rcases hexp hde' with hlt | hold
          · exact Or.inr (fun q hq => lt_of_lt_of_le hlt (hrel q hq))
          · have : st.deliveryStatus args.deliveryID = some .expired := by
              simp [Store.deliveryStatus, hfd, hold]
            rcases he this with hcontra | hall
            · exact absurd hcontra (by simp)
            · exact Or.inr (fun q hq => hall q (List.mem_cons_of_mem p hq))

/-- Once the addressed row shows a terminal status at the start of a
run that satisfies the invariant, the whole run keeps that status. -/
theorem runPasses_preserves_terminal (args : WebhookArgs)
    (σ : WebhookDeliveryStatus) (hσ : σ = .success ∨ σ = .expired) :
    ∀ (ps : List Pass) (st : Store) (done : Bool),
      PassTimesMono ps →
      (st.deliveryStatus args.deliveryID = some .success → done = true) →
      (st.deliveryStatus args.deliveryID = some .expired →
        done = true ∨ ∀ p ∈ ps, args.expiresAt < p.now) →
      st.deliveryStatus args.deliveryID = some σ →
      (runPasses st done args ps).1.deliveryStatus args.deliveryID = some σ := by
  intro ps
  induction ps with
  | nil =>
    intro st done _ _ _ hst
    exact hst
  | cons p tl ih =>
    intro st done hmono hs he hst
    cases done with
    | true =>
      rw [runPasses_done]
      exact hst
    | false =>
      rw [runPasses_cons]
      rcases hσ with hσs | hσe
      · subst hσs
        exact absurd (hs hst) (by simp)
      · subst hσe
        rcases he hst with hcontra | hall
        · exact absurd hcontra (by simp)
        · have hpnow : args.expiresAt < p.now := hall p (List.mem_cons_self p tl)
          cases hfd : st.findDelivery args.deliveryID with
          | none =>
            rw [Store.deliveryStatus, hfd] at hst
            cases hst
          | some d =>
            have hds : d.status = .expired := by
              rw [Store.deliveryStatus, hfd] at hst
              simpa using hst
            obtain ⟨d', hfind, _, _, hkeep⟩ :=
              webhookWork_status_cases st args p.now p.http p.updOk d hfd
            have hd'exp : d'.status = .expired := hkeep hds hpnow
            refine ih _ _ ((List.pairwise_cons.mp hmono).2) ?_ ?_ ?_
            · intro hsucc'
              rw [Store.deliveryStatus, hfind] at hsucc'
              have : d'.status = .success := by
                simpa using hsucc'
              rw [hd'exp] at this
              cases this
            · intro _
              exact Or.inr (fun q hq =>
                hall q (List.mem_cons_of_mem p hq))
            · simp [Store.deliveryStatus, hfind, hd'exp]

/-- C5.  Terminal finality over the queue's driving of one delivery
job: starting from the `pending` row `CreateDelivery` wrote, run any
sequence of scheduled executions whose clock readings are
nondecreasing; if after some prefix the row's status is `success` or
`expired`, the remaining executions never change it — a `success`
pass completes the job so no further pass runs, and every re-run of an
expired delivery hits the expiry guard and rewrites `expired`. -/
theorem terminal_status_stable (st : Store) (args : WebhookArgs)
    (ps1 ps2 : List Pass) (σ : WebhookDeliveryStatus)
    (hmono : PassTimesMono (ps1 ++ ps2))
    (hpending : st.deliveryStatus args.deliveryID = some .pending)
    (hσ : σ = .success ∨ σ = .expired)
    (hafter : (runPasses st false args ps1).1.deliveryStatus args.deliveryID = some σ) :
    (runPasses st false args (ps1 ++ ps2)).1.deliveryStatus args.deliveryID = some σ := by
  rw [runPasses_append]
  have hinv := runPasses_invariant args ps1 ps2 st false hmono
    (fun hsucc => by rw [hpending] at hsucc; cases hsucc)
    (fun hexp => by rw [hpending] at hexp; cases hexp)
  have hmono2 : PassTimesMono ps2 := (List.pairwise_append.mp hmono).2.1
  exact runPasses_preserves_terminal args σ hσ ps2 _ _ hmono2 hinv.1 hinv.2 hafter

/-- C5 witness: a first pass at time 50 delivers 2xx and concludes
`success`; a second scheduled pass at time 60 leaves the status
`success`. -/
theorem terminal_status_stable_witness :
    (runPasses sampleDeliveryStore false sampleWebhookArgs
        ([{ now := 50, http := .response 200 "OK" "thanks", updOk := fun _ => true }] ++
         [{ now := 60, http := .response 500 "ISE" "x", updOk := fun _ => true }])).1.deliveryStatus
        "D1" = some .success :=
  terminal_status_stable sampleDeliveryStore sampleWebhookArgs
    [{ now := 50, http := .response 200 "OK" "thanks", updOk := fun _ => true }]
    [{ now := 60, http := .response 500 "ISE" "x", updOk := fun _ => true }]
    .success
    (by
      simp only [PassTimesMono, List.singleton_append]
      refine List.pairwise_cons.mpr ⟨?_, List.pairwise_singleton _ _⟩
      intro q hq
      have hq2 : q = ({ now := 60, http := .response 500 "ISE" "x", updOk := fun _ => true } : Pass) := by
        simpa using hq
      rw [hq2]
      norm_num)
    (by rfl)
    (Or.inl rfl)
    (by rfl)


/-- The empty store. -/
def emptyStore : Store := { registrations := [], events := [], deliveries := [] }

/-- A minimal valid registration request used by the C9 witness. -/
def regReqW : RegisterWebhookRequest :=
  { nspace := "n", events := ["e"], url := "u", headers := [], timeout := 0,
    active := true, description := "" }

/-- The registration that request stores (timeout defaulted to 30). -/
def regW : WebhookRegistration :=
  { id := "F2", nspace := "n", events := ["e"], url := "u", headers := [],
    timeout := 30, active := true, description := "", createdAt := 7, updatedAt := 7 }

/-- The store after registering `regReqW` into the empty store. -/
def regStoreW : Store := { registrations := [regW], events := [], deliveries := [] }

/-- C9 witness: the verbatim-storage and exact-match statement applied
to a concrete registration. -/
theorem events_stored_verbatim_exact_match_witness :
    regW.events = regReqW.events ∧
    (regW ∈ Repository.getWebhooksByEvent regStoreW "n" "e" ↔
      (regW ∈ regStoreW.registrations ∧ regW.nspace = "n" ∧ regW.active = true ∧
        "e" ∈ regW.events)) :=
  have h := events_stored_verbatim_exact_match emptyStore regReqW "F2" 7 regStoreW regW
    (by rfl)
  ⟨h.1, h.2 "n" "e" regW⟩

end Sparrow
